import Mathlib

/-!
Verification development for the MCP_Sentry tool-execution bridge.

The TypeScript sources are shallowly embedded:
* a JS string is modelled as a `List Char`;
* `String.prototype.split('\n')` is `splitNL`;
* JS objects used as string maps (environment objects, argument objects)
  are modelled as functions `String → Option V`, with object-spread
  precedence written out key by key exactly as in the source object
  literals;
* promise settlement is modelled by the `Settle` type: a promise settles
  at most once, and later `resolve`/`reject` calls are no-ops;
* the event-driven executor (`apps/gateway/src/executor.ts`) and the
  discovery runner (`scripts/inspector.ts`) are modelled as step
  functions over explicit states, driven by traces of stream/timer
  events.
-/

namespace MCPSentry

/-- Model of JavaScript `str.split('\n')` on the character-list view of a
string: returns the (always non-empty) list of newline-free segments;
`n` separators yield `n + 1` segments, possibly empty. -/
def splitNL : List Char → List (List Char)
  | [] => [[]]
  | c :: rest =>
    if c = '\n' then [] :: splitNL rest
    else
      match splitNL rest with
      | [] => [[c]]
      | s :: ss => (c :: s) :: ss

/-- Gluing of two split results: the last segment of the left result is
joined with the first segment of the right result. -/
def glue : List (List Char) → List (List Char) → List (List Char)
  | [], bs => bs
  | [a], [] => [a]
  | [a], b :: bs => (a ++ b) :: bs
  | a :: a2 :: as, bs => a :: glue (a2 :: as) bs

/-- Model of the JS blank-line test `!line.trim()`: true iff the line is
all whitespace (so the reader skips it). -/
def isBlank (l : List Char) : Bool := l.all Char.isWhitespace

/-- Parse attempt for one line, as the readers perform it: whitespace-only
lines are skipped (`if (!line.trim()) continue`), any other line is handed
to `JSON.parse`, modelled by the parameter `parse` (a failing parse, i.e.
`none`, is silently ignored by the `catch` block). -/
def parseKept (parse : List Char → Option M) (l : List Char) : Option M :=
  if isBlank l then none else parse l

/-- State of the Discovery Runner's buffered standard-output reader
(`scripts/inspector.ts`, `fetchToolsFromRunningServer`): the list of
messages parsed so far and the partial trailing line re-buffered across
reads (`let buffer = ''`). -/
structure ReaderState (M : Type) where
  out : List M
  buf : List Char
deriving Repr, DecidableEq

/-- One `data` delivery to the Discovery Runner's buffered reader
(`inspector.ts` lines 205-212): append the chunk to the buffer, split on
newlines, pop the trailing partial line back into the buffer, and parse
each complete non-blank line as JSON. -/
def readerOnData (parse : List Char → Option M) (st : ReaderState M)
    (chunk : List Char) : ReaderState M :=
  let lines := splitNL (st.buf ++ chunk)
  { out := st.out ++ lines.dropLast.filterMap (parseKept parse),
    buf := lines.getLastD [] }

/-- The reader's initial state: nothing parsed, empty buffer. -/
def readerInit : ReaderState M := ⟨[], []⟩

/-- Feeding a whole sequence of chunk deliveries to the buffered reader. -/
def readerRun (parse : List Char → Option M) (chunks : List (List Char)) :
    ReaderState M :=
  chunks.foldl (readerOnData parse) readerInit

/-- Character-list view of a string literal. -/
def strL (s : String) : List Char := s.toList

/-- The fields of a downstream protocol message that the bridge inspects
after `JSON.parse`: the `id`, presence of a `result` field, presence of
`result.tools`, and the `error.message` text when an `error` field is
present. -/
structure RpcMsg where
  rpcId : Option Nat
  hasResult : Bool
  hasTools : Bool
  errMsg : Option (List Char)
deriving Repr, DecidableEq

/-- `substring containment` on character lists, used to state what a
rejection message does (or does not) carry. -/
def containsChars (sub : List Char) : List Char → Bool
  | [] => sub.isEmpty
  | c :: t => sub.isPrefixOf (c :: t) || containsChars sub t

/-- Consume an expected literal at the head of the input. -/
def lit (s : List Char) (l : List Char) : Option (List Char) :=
  if s.isPrefixOf l then some (l.drop s.length) else none

/-- Decimal value of a digit run. -/
def digitsToNat (ds : List Char) : Nat :=
  ds.foldl (fun acc c => acc * 10 + (c.toNat - 48)) 0

/-- Concrete model of `JSON.parse` restricted to the protocol response
lines used in this development's concrete runs: an object with an `id`
followed by either an empty `result`, a `result` with a `tools` array, or
an `error` with a `message`. Any other line — in particular any partial
fragment of such a line, as produced when a message is split across two
chunk deliveries — fails to parse, just as `JSON.parse` throws on it. -/
def parseLineM (l : List Char) : Option RpcMsg :=
  match lit (strL "\x7b\"id\":") l with
  | none => none
  | some r1 =>
    let ds := r1.takeWhile Char.isDigit
    let r2 := r1.dropWhile Char.isDigit
    if ds = [] then none
    else
      let n := digitsToNat ds
      if r2 = strL ",\"result\":\x7b\x7d\x7d" then
        some ⟨some n, true, false, none⟩
      else if r2 = strL ",\"result\":\x7b\"tools\":[]\x7d\x7d" then
        some ⟨some n, true, true, none⟩
      else
        match lit (strL ",\"error\":\x7b\"message\":\"") r2 with
        | none => none
        | some r3 =>
          let ms := r3.takeWhile (fun c => c ≠ '"')
          let r4 := r3.dropWhile (fun c => c ≠ '"')
          if r4 = strL "\"\x7d\x7d" then some ⟨some n, false, false, some ms⟩
          else none

/-- Settlement state of a JS promise: it settles at most once, and later
`resolve`/`reject` calls are no-ops. -/
inductive Settle (α : Type)
  | pending
  | resolved (a : α)
  | rejected (msg : List Char)
deriving Repr, DecidableEq

/-- `resolve`: only effective while the promise is pending. -/
def settleResolve : Settle α → α → Settle α
  | .pending, a => .resolved a
  | s, _ => s

/-- `reject`: only effective while the promise is pending. -/
def settleReject : Settle α → List Char → Settle α
  | .pending, m => .rejected m
  | s, _ => s

/-- State of one `MCPExecutor.executeTool` invocation
(`apps/gateway/src/executor.ts`): whether `this.process` is non-null,
whether the OS process is still alive, the `isInitialized` flag, whether
the handshake `data` listener is still attached (it is removed with
`off` only on the id-0 resolve path), and the settlement states of the
`performHandshake` and `callTool` promises. -/
structure ExecState where
  procRef : Bool
  alive : Bool
  isInitialized : Bool
  hsAttached : Bool
  hs : Settle Unit
  call : Settle Bool
deriving Repr, DecidableEq

/-- `MCPExecutor.kill` (executor.ts lines 199-204): if `this.process` is
non-null, kill it and null the reference; otherwise do nothing. -/
def killExec (s : ExecState) : ExecState :=
  if s.procRef then { s with procRef := false, alive := false } else s

/-- External events delivered to one executor invocation: a stdout chunk,
a stderr chunk (only logged, never captured), the process `close` event
with its exit code (`null` when killed by signal), the 15s handshake
timeout callback, and the 60s safety timeout callback armed in
`startServer`. -/
inductive ExecEvent
  | stdoutData (chunk : List Char)
  | stderrData (chunk : List Char)
  | procClose (code : Option Int)
  | hsTimeout
  | safetyTimeout

/-- Decimal rendering of a `Nat`. -/
def natChars (n : Nat) : List Char := Nat.toDigits 10 n

/-- JS template-literal rendering of the `close` exit code, which is a
number or `null`. -/
def codeChars : Option Int → List Char
  | none => strL "null"
  | some n => if n < 0 then '-' :: natChars n.natAbs else natChars n.natAbs

/-- The message of the executor's early-exit rejection (executor.ts line
120): it interpolates the exit code but no captured stderr text. -/
def execCrashMsg (code : Option Int) : List Char :=
  strL "Server exited early with code " ++ codeChars code
    ++ strL ". Check logs above."

/-- One line handled by the handshake `data` listener (executor.ts lines
134-151): on an id-0 message with a `result`, send the initialized
notification, detach the listener, set `isInitialized`, and resolve. -/
def hsLine (s : ExecState) (m : RpcMsg) : ExecState :=
  if m.rpcId = some 0 ∧ m.hasResult then
    { s with hsAttached := false, isInitialized := true,
             hs := settleResolve s.hs () }
  else s

/-- One line handled by the `callTool` `data` listener (executor.ts lines
179-192): on an id-100 message, detach, then reject with the error
message when an `error` field is present, else resolve with the result. -/
def callLine (s : ExecState) (m : RpcMsg) : ExecState :=
  if m.rpcId = some 100 then
    match m.errMsg with
    | some em => { s with call := settleReject s.call em }
    | none => { s with call := settleResolve s.call m.hasResult }
  else s

/-- The messages a listener extracts from one chunk: split on newlines,
skip blank lines, parse the rest, ignore parse failures. -/
def chunkMsgs (parse : List Char → Option RpcMsg) (chunk : List Char) :
    List RpcMsg :=
  (splitNL chunk).filterMap (parseKept parse)

/-- One event step of an executor invocation, combining the handlers
registered by `startServer`, `performHandshake` and `callTool`. The
`callTool` listener exists exactly when the handshake promise has
resolved and the call promise is still pending. -/
def execStep (parse : List Char → Option RpcMsg) (s : ExecState) :
    ExecEvent → ExecState
  | .stdoutData chunk =>
    if s.hsAttached then (chunkMsgs parse chunk).foldl hsLine s
    else if s.hs = .resolved () ∧ s.call = .pending then
      (chunkMsgs parse chunk).foldl callLine s
    else s
  | .stderrData _ => s
  | .procClose code =>
    let s := { s with alive := false }
    if ¬s.isInitialized then
      { s with hs := settleReject s.hs (execCrashMsg code) }
    else s
  | .hsTimeout =>
    if ¬s.isInitialized then
      let s := killExec s
      { s with hs := settleReject s.hs (strL "Handshake timeout") }
    else s
  | .safetyTimeout => killExec s

/-- Executor state right after `startServer` spawned the process and
`performHandshake` attached its listeners and wrote the init request. -/
def execInit : ExecState :=
  ⟨true, true, false, true, .pending, .pending⟩

/-- An executor invocation driven by a trace of events. -/
def runExec (parse : List Char → Option RpcMsg) (events : List ExecEvent) :
    ExecState :=
  events.foldl (execStep parse) execInit

/-- A JS object used as a string-keyed map (environment object, JSON
argument object); `none` is an absent key. -/
def StrMap (V : Type) := String → Option V

/-- Build a map from an association list (later entries shadow earlier
ones in JS object literals; lists used here have distinct keys). -/
def mapOf (l : List (String × V)) : StrMap V :=
  fun k => (l.find? (fun p => p.1 == k)).map Prod.snd

/-- The tool environment the gateway hands to the executor constructor
(`apps/gateway/src/index.ts` line 121): `{ ...configEnv, ...secretEnv }`,
so a secret wins over a configured value on the same key. -/
def gatewayToolEnv (configEnv secretEnv : StrMap String) : StrMap String :=
  fun k =>
    match secretEnv k with
    | some v => some v
    | none => configEnv k

/-- `path.resolve(this.cwd, '.venv', 'Scripts'|'bin')` (executor.ts lines
77-79), modelled for the absolute working directories the provisioner
produces. -/
def venvBinDir (win : Bool) (cwd : String) : String :=
  if win then cwd ++ "\\.venv\\Scripts" else cwd ++ "/.venv/bin"

/-- The platform PATH separator chosen at executor.ts line 80. -/
def pathDelim (win : Bool) : String := if win then ";" else ":"

/-- JS template-literal coercion of a possibly-undefined string. -/
def undefStr (o : Option String) : String := o.getD "undefined"

/-- The `newPath` computation of `startServer` (executor.ts lines 74-82):
when `this.cwd` is truthy, the venv executable directory is prepended to
the gateway process's own PATH. -/
def newPathOf (win : Bool) (procEnv : StrMap String) (cwd : String) :
    Option String :=
  if cwd ≠ "" then
    some (venvBinDir win cwd ++ pathDelim win ++ undefStr (procEnv "PATH"))
  else procEnv "PATH"

/-- The environment object passed to `spawn` (executor.ts lines 87-94):
`{ ...process.env, ...this.env, PATH: newPath, PYTHONUNBUFFERED: '1',
PYTHONPATH: this.cwd }` — later keys of the object literal win. -/
def spawnEnv (win : Bool) (procEnv toolEnv : StrMap String) (cwd : String) :
    StrMap String :=
  fun k =>
    if k = "PYTHONPATH" then some cwd
    else if k = "PYTHONUNBUFFERED" then some "1"
    else if k = "PATH" then newPathOf win procEnv cwd
    else
      match toolEnv k with
      | some v => some v
      | none => procEnv k

/-- The argument object the gateway sends on invoke (index.ts line 122):
`{ ...args, ...defaultArgs }` — configured defaults win on conflict. -/
def mergedArgs (args defaults : StrMap V) : StrMap V :=
  fun k =>
    match defaults k with
    | some v => some v
    | none => args k

/-- The single data request `callTool` writes (executor.ts lines
169-177): JSON-RPC 2.0, fixed id 100, method `tools/call`. -/
structure CallRequest (V : Type) where
  jsonrpc : String
  reqId : Nat
  method : String
  toolName : String
  arguments : StrMap V

/-- Request construction in `callTool` for the arguments it was given. -/
def mkCallRequest (name : String) (args : StrMap V) : CallRequest V :=
  ⟨"2.0", 100, "tools/call", name, args⟩

/-- The capability-invocation request produced for a gateway invoke:
`executor.executeTool(name, { ...args, ...defaultArgs })` flows the
merged argument object unchanged into the id-100 request. -/
def gatewayCallRequest (name : String) (callerArgs defaults : StrMap V) :
    CallRequest V :=
  mkCallRequest name (mergedArgs callerArgs defaults)

/-- One capability descriptor of a tool manifest. -/
structure Capability where
  capName : String
  descr : String
  inputSchema : String
deriving Repr, DecidableEq

/-- One row of the `tools` table as the gateway reads it. -/
structure ToolReg where
  regId : String
  userId : String
  isPublic : Bool
  status : String
  manifestTools : List Capability
  bundlePath : String
  startCommand : String
deriving Repr, DecidableEq

/-- The gateway's tool query (index.ts lines 75-79 and 99-103):
`status = 'active'` and (`user_id = userId` or `is_public = true`),
in the stable order the store returns rows. -/
def visibleTools (uid : String) (regs : List ToolReg) : List ToolReg :=
  regs.filter (fun t => t.status == "active" && (t.userId == uid || t.isPublic))

/-- One entry of a list-capabilities response (index.ts lines 81-89). -/
structure ListedTool where
  listedName : String
  listedDescr : String
  listedSchema : String
  listedToolId : String
deriving Repr, DecidableEq

/-- The mapping of a manifest capability to a listed entry, tagged with
the owning registration's id. -/
def listedOf (t : ToolReg) (c : Capability) : ListedTool :=
  ⟨c.capName, c.descr, c.inputSchema, t.regId⟩

/-- The ListTools handler (index.ts lines 73-93): map each visible
registration's manifest capabilities to entries and flatten. -/
def listToolsHandler (uid : String) (regs : List ToolReg) : List ListedTool :=
  ((visibleTools uid regs).map
    (fun t => t.manifestTools.map (listedOf t))).flatten

/-- `manifest.tools.find(mt => mt.name === name)` truthiness. -/
def advertises (t : ToolReg) (name : String) : Bool :=
  (t.manifestTools.find? (fun mt => mt.capName == name)).isSome

/-- The resolution loop of the CallTool handler (index.ts lines 105-114):
the first visible registration advertising the name, else the not-found
error. -/
def resolveTool (uid : String) (regs : List ToolReg) (name : String) :
    Except String ToolReg :=
  match (visibleTools uid regs).find? (fun t => advertises t name) with
  | some t => .ok t
  | none => .error ("Tool " ++ name ++ " not found")

/-- Environment a `prepareTool` call runs against: the state of the cache
directory for this tool id, the detection-file flags of the extracted
bundle, and the outcome of every external step it may run
(`apps/gateway/src/provisioner.ts`). -/
structure ProvScenario where
  dirExists : Bool
  dirFiles : List String
  download : Except String Unit
  hasPackageJson : Bool
  hasPnpmLock : Bool
  hasTsconfig : Bool
  hasPyproject : Bool
  hasRequirements : Bool
  hasUvLock : Bool
  pnpmInstall : Except String Unit
  npmInstall : Except String Unit
  npmBuild : Except String Unit
  venvCreate : Except String Unit
  pipUpgrade : Except String Unit
  pipInstallUv : Except String Unit
  uvSync : Except String Unit
  pipInstallProject : Except String Unit
  pipInstallReqs : Except String Unit

/-- Observable side effects of a `prepareTool` call. -/
inductive ProvEffect
  | removeDir
  | ensureDir
  | downloadBundle (path : String)
  | extract
  | runStep (label : String)
deriving Repr, DecidableEq

/-- `path.join(path.resolve('runtime_cache'), toolId)` (provisioner.ts
lines 58-59), for the resolved cache root. -/
def toolDirOf (runtimeCache toolId : String) : String :=
  runtimeCache ++ "/" ++ toolId

/-- The install phase of the provisioner's cold path (provisioner.ts
lines 90-154), given the effects accumulated so far. -/
def provInstall (sc : ProvScenario) (toolDir : String)
    (eff : List ProvEffect) : Except String String × List ProvEffect :=
  if sc.hasPackageJson then
    if sc.hasPnpmLock then
      let eff := eff ++ [.runStep "npm install -g pnpm", .runStep "pnpm install"]
      match sc.pnpmInstall with
      | .error m => (.error m, eff)
      | .ok _ =>
        if sc.hasTsconfig then (.ok toolDir, eff ++ [.runStep "npm run build"])
        else (.ok toolDir, eff)
    else
      let eff := eff ++ [.runStep "npm install --omit=dev"]
      match sc.npmInstall with
      | .error m => (.error m, eff)
      | .ok _ =>
        if sc.hasTsconfig then (.ok toolDir, eff ++ [.runStep "npm run build"])
        else (.ok toolDir, eff)
  else if sc.hasPyproject || sc.hasRequirements then
    let eff := eff ++ [.runStep "python -m venv .venv"]
    match sc.venvCreate with
    | .error m => (.error m, eff)
    | .ok _ =>
      let eff := eff ++ [.runStep "pip install --upgrade pip"]
      match sc.pipUpgrade with
      | .error m => (.error m, eff)
      | .ok _ =>
        let eff := eff ++ [.runStep "pip install uv"]
        match sc.pipInstallUv with
        | .error m => (.error m, eff)
        | .ok _ =>
          if sc.hasUvLock then
            let eff := eff ++ [.runStep "uv sync"]
            match sc.uvSync with
            | .error m => (.error m, eff)
            | .ok _ => (.ok toolDir, eff)
          else if sc.hasPyproject then
            let eff := eff ++ [.runStep "pip install ."]
            match sc.pipInstallProject with
            | .error m => (.error m, eff)
            | .ok _ => (.ok toolDir, eff)
          else
            let eff := eff ++ [.runStep "pip install -r requirements.txt"]
            match sc.pipInstallReqs with
            | .error m => (.error m, eff)
            | .ok _ => (.ok toolDir, eff)
  else (.ok toolDir, eff)

/-- `prepareTool(toolId, bundlePath)` (provisioner.ts lines 57-156):
return the cached directory immediately when it exists and is non-empty;
otherwise clean, download, extract, detect the runtime and install. The
returned effect list records the side effects performed. -/
def prepareTool (sc : ProvScenario) (runtimeCache toolId bundlePath : String) :
    Except String String × List ProvEffect :=
  let toolDir := toolDirOf runtimeCache toolId
  if sc.dirExists && sc.dirFiles.length > 0 then (.ok toolDir, [])
  else
    let eff := (if sc.dirExists then [ProvEffect.removeDir] else [])
      ++ [.ensureDir, .downloadBundle bundlePath]
    match sc.download with
    | .error m => (.error ("Failed to download bundle: " ++ m), eff)
    | .ok _ => provInstall sc toolDir (eff ++ [.extract])

/-- Environment an `installDependencies` call of the Discovery Runner
runs against (`scripts/inspector.ts` lines 115-172). -/
structure InstallScenario where
  hasPackageJson : Bool
  pkgJsonParse : Except String Unit
  hasBuildScript : Bool
  hasPyproject : Bool
  hasRequirements : Bool
  npmInstall : Except String Unit
  npmBuild : Except String Unit
  venvCreate : Except String Unit
  pipUpgrade : Except String Unit
  pipReqs : Except String Unit
  pipProject : Except String Unit

/-- `installDependencies(cwd)` of the Discovery Runner (inspector.ts
lines 115-172): npm install and npm run build failures are swallowed;
reading package.json is unguarded so its failure propagates; venv
creation failure propagates; pip upgrade failure is swallowed; a
requirements.txt install failure is re-thrown (fatal); a
`pip install .` failure is a logged warning only. Also returns the
commands attempted, in order. -/
def installDependencies (sc : InstallScenario) :
    Except String Unit × List String :=
  if sc.hasPackageJson then
    let steps := ["npm install"]
    match sc.pkgJsonParse with
    | .error m => (.error m, steps)
    | .ok _ =>
      if sc.hasBuildScript then (.ok (), steps ++ ["npm run build"])
      else (.ok (), steps)
  else if sc.hasPyproject || sc.hasRequirements then
    let steps := ["python3 -m venv .venv"]
    match sc.venvCreate with
    | .error m => (.error m, steps)
    | .ok _ =>
      let steps := steps ++ ["pip install --upgrade pip"]
      if sc.hasRequirements then
        let steps := steps ++ ["pip install -r requirements.txt"]
        match sc.pipReqs with
        | .error m => (.error m, steps)
        | .ok _ =>
          if sc.hasPyproject then (.ok (), steps ++ ["pip install ."])
          else (.ok (), steps)
      else
        if sc.hasPyproject then (.ok (), steps ++ ["pip install ."])
        else (.ok (), steps)
  else (.ok (), [])

/-- The steps of a Discovery Runner registration run, in program order
(inspector.ts `main`). -/
inductive RunnerStep
  | cloneStep
  | installStep
  | secretsStep
  | introspectStep
  | packStep
  | uploadStep
deriving Repr, DecidableEq

/-- Environment one Discovery Runner registration run executes against. -/
structure RunnerScenario where
  clone : Except String Unit
  install : InstallScenario
  introspect : Except String (List Capability)
  pack : Except String Unit
  upload : Except String Unit

/-- What the run writes back to the tool's registration row: the failed
branch (inspector.ts line 108) writes only `status` and `error_message`;
the success branch (lines 95-102) writes `status: 'active'` and the
manifest. -/
structure ToolRowUpdate where
  status : String
  manifestTools : Option (List Capability)
  errorMessage : Option String
deriving Repr, DecidableEq

/-- `main()` of the Discovery Runner (inspector.ts lines 41-111): the
try-block runs clone, dependency install, secrets fetch (whose own
failure is caught inside `getSecrets` and yields `{}`), introspection,
packaging and upload in order; the catch-block writes `status: 'failed'`
with the thrown message. Also returns the list of steps started. -/
def runnerMain (sc : RunnerScenario) : ToolRowUpdate × List RunnerStep :=
  match sc.clone with
  | .error m => (⟨"failed", none, some m⟩, [.cloneStep])
  | .ok _ =>
    match (installDependencies sc.install).1 with
    | .error m => (⟨"failed", none, some m⟩, [.cloneStep, .installStep])
    | .ok _ =>
      match sc.introspect with
      | .error m =>
        (⟨"failed", none, some m⟩,
          [.cloneStep, .installStep, .secretsStep, .introspectStep])
      | .ok tools =>
        match sc.pack with
        | .error m =>
          (⟨"failed", none, some m⟩,
            [.cloneStep, .installStep, .secretsStep, .introspectStep,
              .packStep])
        | .ok _ =>
          match sc.upload with
          | .error m =>
            (⟨"failed", none, some m⟩,
              [.cloneStep, .installStep, .secretsStep, .introspectStep,
                .packStep, .uploadStep])
          | .ok _ =>
            (⟨"active", some tools, none⟩,
              [.cloneStep, .installStep, .secretsStep, .introspectStep,
                .packStep, .uploadStep])

/-- The first failing step of a run and its thrown message, if any. -/
def firstRunnerFailure (sc : RunnerScenario) : Option (RunnerStep × String) :=
  match sc.clone with
  | .error m => some (.cloneStep, m)
  | .ok _ =>
    match (installDependencies sc.install).1 with
    | .error m => some (.installStep, m)
    | .ok _ =>
      match sc.introspect with
      | .error m => some (.introspectStep, m)
      | .ok _ =>
        match sc.pack with
        | .error m => some (.packStep, m)
        | .ok _ =>
          match sc.upload with
          | .error m => some (.uploadStep, m)
          | .ok _ => none

/-- The prefix of steps started up to and including a failing step. -/
def stepsThrough : RunnerStep → List RunnerStep
  | .cloneStep => [.cloneStep]
  | .installStep => [.cloneStep, .installStep]
  | .secretsStep => [.cloneStep, .installStep, .secretsStep]
  | .introspectStep =>
    [.cloneStep, .installStep, .secretsStep, .introspectStep]
  | .packStep =>
    [.cloneStep, .installStep, .secretsStep, .introspectStep, .packStep]
  | .uploadStep =>
    [.cloneStep, .installStep, .secretsStep, .introspectStep, .packStep,
      .uploadStep]

/-- State of one `fetchToolsFromRunningServer` run of the Discovery
Runner (inspector.ts lines 174-266): process liveness, `isInitialized`,
the re-buffered partial stdout line, the accumulated `stderrLog`, and
the settlement state of the returned promise. -/
structure InspState where
  alive : Bool
  isInitialized : Bool
  buf : List Char
  stderrLog : List Char
  p : Settle Unit
deriving Repr, DecidableEq

/-- Events delivered to one Discovery Runner handshake run. -/
inductive InspEvent
  | stdoutData (chunk : List Char)
  | stderrData (chunk : List Char)
  | procExit (code : Option Int)
  | timeout

/-- The early-exit rejection message of the Discovery Runner
(inspector.ts line 192): it interpolates the exit code and ends with the
captured stderr log. -/
def inspCrashMsg (code : Option Int) (log : List Char) : List Char :=
  strL "Server exited early (code " ++ codeChars code
    ++ strL "). Logs:\n" ++ log

/-- The Discovery Runner's handshake timeout message (inspector.ts line
262). -/
def inspTimeoutMsg : List Char :=
  strL "Timeout: Handshake failed (20s). Check Server stderr logs above."

/-- One complete line handled by the Discovery Runner's stdout listener
(inspector.ts lines 213-239): an id-0 result sends the initialized
notification and the tools request and sets `isInitialized`; an id-1
result with `tools` resolves the promise and kills the process; an
`error` member is only logged. -/
def inspLine (s : InspState) (m : RpcMsg) : InspState :=
  let s :=
    if m.rpcId = some 0 ∧ m.hasResult then { s with isInitialized := true }
    else s
  if m.rpcId = some 1 ∧ m.hasResult ∧ m.hasTools then
    { s with p := settleResolve s.p (), alive := false }
  else s

/-- One event step of a Discovery Runner handshake run. -/
def inspStep (parse : List Char → Option RpcMsg) (s : InspState) :
    InspEvent → InspState
  | .stdoutData chunk =>
    let lines := splitNL (s.buf ++ chunk)
    (lines.dropLast.filterMap (parseKept parse)).foldl inspLine
      { s with buf := lines.getLastD [] }
  | .stderrData chunk => { s with stderrLog := s.stderrLog ++ chunk }
  | .procExit code =>
    let s := { s with alive := false }
    if ¬s.isInitialized then
      { s with p := settleReject s.p (inspCrashMsg code s.stderrLog) }
    else s
  | .timeout =>
    if ¬s.isInitialized then
      { s with alive := false, p := settleReject s.p inspTimeoutMsg }
    else s

/-- Initial state of a Discovery Runner handshake run. -/
def inspInit : InspState := ⟨true, false, [], [], .pending⟩

/-- A Discovery Runner handshake run driven by a trace of events. -/
def runInsp (parse : List Char → Option RpcMsg) (events : List InspEvent) :
    InspState :=
  events.foldl (inspStep parse) inspInit

theorem splitNL_ne_nil (l : List Char) : splitNL l ≠ [] := by
  match l with
  | [] => simp [splitNL]
  | c :: rest =>
    by_cases h : c = '\n'
    · simp [splitNL, h]
    · simp only [splitNL, if_neg h]
      cases hs : splitNL rest <;> simp

theorem splitNL_no_newline (l : List Char) :
    ∀ s ∈ splitNL l, ('\n' : Char) ∉ s := by
  induction l with
  | nil =>
    intro s hs
    simp only [splitNL, List.mem_singleton] at hs
    simp [hs]
  | cons c rest ih =>
    intro s hs
    by_cases h : c = '\n'
    · simp only [splitNL, if_pos h, List.mem_cons] at hs
      rcases hs with hs | hs
      · simp [hs]
      · exact ih s hs
    · simp only [splitNL, if_neg h] at hs
      cases hrest : splitNL rest with
      | nil => exact absurd hrest (splitNL_ne_nil rest)
      | cons t ts =>
        rw [hrest] at hs
        simp only [List.mem_cons] at hs
        rcases hs with hs | hs
        · subst hs
          intro hmem
          rcases List.mem_cons.mp hmem with hc | hmem
          · exact h hc.symm
          · exact ih t (by rw [hrest]; exact List.mem_cons_self t ts) hmem
        · exact ih s (by rw [hrest]; exact List.mem_cons_of_mem t hs)

theorem splitNL_eq_single (l : List Char) (h : ('\n' : Char) ∉ l) :
    splitNL l = [l] := by
  induction l with
  | nil => simp [splitNL]
  | cons c rest ih =>
    have hc : c ≠ '\n' := fun hc => h (by simp [hc])
    have hrest : ('\n' : Char) ∉ rest := fun hm => h (List.mem_cons_of_mem c hm)
    simp [splitNL, hc, ih hrest]

theorem splitNL_append (a b : List Char) :
    splitNL (a ++ b) = glue (splitNL a) (splitNL b) := by
  induction a with
  | nil =>
    show splitNL b = glue (splitNL []) (splitNL b)
    cases hb : splitNL b with
    | nil => exact absurd hb (splitNL_ne_nil b)
    | cons t ts => simp [splitNL, glue]
  | cons c rest ih =>
    show splitNL (c :: (rest ++ b)) = glue (splitNL (c :: rest)) (splitNL b)
    by_cases h : c = '\n'
    · simp only [splitNL, if_pos h]
      cases hr : splitNL rest with
      | nil => exact absurd hr (splitNL_ne_nil rest)
      | cons t ts =>
        rw [ih, hr]
        simp [glue]
    · simp only [splitNL, if_neg h]
      cases hr : splitNL rest with
      | nil => exact absurd hr (splitNL_ne_nil rest)
      | cons t ts =>
        rw [ih, hr]
        cases ts with
        | nil =>
          cases hb : splitNL b with
          | nil => exact absurd hb (splitNL_ne_nil b)
          | cons u us => simp [glue]
        | cons t2 ts2 => simp [glue]

theorem glue_append_single (as : List (List Char)) (a : List Char)
    (bs : List (List Char)) : glue (as ++ [a]) bs = as ++ glue [a] bs := by
  induction as with
  | nil => simp
  | cons x xs ih =>
    cases xs with
    | nil => rfl
    | cons y ys =>
      have step : glue ((x :: y :: ys) ++ [a]) bs
          = x :: glue ((y :: ys) ++ [a]) bs := rfl
      rw [step, ih]
      rfl

theorem glue_ne_nil (as bs : List (List Char)) (hb : bs ≠ []) :
    glue as bs ≠ [] := by
  induction as with
  | nil => simpa [glue]
  | cons x xs ih =>
    cases xs with
    | nil =>
      cases bs with
      | nil => exact absurd rfl hb
      | cons b bs' => simp [glue]
    | cons x2 xs2 => simp [glue]

theorem glue_ne_nil_left (as bs : List (List Char)) (ha : as ≠ []) :
    glue as bs ≠ [] := by
  cases as with
  | nil => exact absurd rfl ha
  | cons x xs =>
    cases xs with
    | nil =>
      cases bs with
      | nil => simp [glue]
      | cons b bs' => simp [glue]
    | cons x2 xs2 => simp [glue]

theorem getLastD_default_irrel (l : List α) (d d' : α) (h : l ≠ []) :
    l.getLastD d = l.getLastD d' := by
  cases l with
  | nil => exact absurd rfl h
  | cons a l' => rfl

theorem getLastD_mem (l : List α) : ∀ d, l ≠ [] → l.getLastD d ∈ l := by
  induction l with
  | nil => intro d h; exact absurd rfl h
  | cons a l' ih =>
    intro d h
    cases l' with
    | nil => simp [List.getLastD]
    | cons b l2 =>
      rw [List.getLastD_cons]
      exact List.mem_cons_of_mem a (ih a (by simp))

theorem glue_getLast_eq (as bs : List (List Char)) (ha : as ≠ []) :
    (glue as bs).getLastD [] = (glue [as.getLastD []] bs).getLastD [] := by
  induction as with
  | nil => exact absurd rfl ha
  | cons x xs ih =>
    cases xs with
    | nil => rfl
    | cons x2 xs2 =>
      have hg : glue (x2 :: xs2) bs ≠ [] := glue_ne_nil_left _ _ (by simp)
      show (x :: glue (x2 :: xs2) bs).getLastD [] = _
      rw [List.getLastD_cons, getLastD_default_irrel _ x [] hg, ih (by simp),
        show (x :: x2 :: xs2).getLastD [] = (x2 :: xs2).getLastD x from rfl,
        getLastD_default_irrel (x2 :: xs2) x [] (by simp)]

theorem glue_dropLast (as bs : List (List Char)) (hb : bs ≠ []) :
    (glue as bs).dropLast = as.dropLast ++ (glue [as.getLastD []] bs).dropLast := by
  induction as with
  | nil =>
    cases bs with
    | nil => exact absurd rfl hb
    | cons b bs' => simp [glue]
  | cons x xs ih =>
    cases xs with
    | nil => simp [glue]
    | cons x2 xs2 =>
      show (x :: glue (x2 :: xs2) bs).dropLast = _
      have hne : glue (x2 :: xs2) bs ≠ [] := glue_ne_nil _ _ hb
      rw [List.dropLast_cons_of_ne_nil hne, ih,
        List.dropLast_cons_of_ne_nil (show x2 :: xs2 ≠ [] by simp),
        show (x :: x2 :: xs2).getLastD [] = (x2 :: xs2).getLastD x from rfl,
        getLastD_default_irrel (x2 :: xs2) x [] (by simp)]
      simp

theorem getLastD_splitNL_no_newline (l : List Char) :
    ('\n' : Char) ∉ (splitNL l).getLastD [] :=
  splitNL_no_newline l _ (getLastD_mem (splitNL l) [] (splitNL_ne_nil l))

theorem readerOnData_append (parse : List Char → Option M)
    (st : ReaderState M) (c1 c2 : List Char) :
    readerOnData parse (readerOnData parse st c1) c2
      = readerOnData parse st (c1 ++ c2) := by
  have hassoc : st.buf ++ (c1 ++ c2) = (st.buf ++ c1) ++ c2 := by simp
  have hsplit : splitNL (st.buf ++ (c1 ++ c2))
      = glue (splitNL (st.buf ++ c1)) (splitNL c2) := by
    rw [hassoc, splitNL_append]
  have hb2 : splitNL c2 ≠ [] := splitNL_ne_nil c2
  have ha1 : splitNL (st.buf ++ c1) ≠ [] := splitNL_ne_nil _
  have hsingle : splitNL ((splitNL (st.buf ++ c1)).getLastD []) =
      [(splitNL (st.buf ++ c1)).getLastD []] :=
    splitNL_eq_single _ (getLastD_splitNL_no_newline _)
  simp only [readerOnData]
  apply congrArg₂ ReaderState.mk
  · rw [hsplit, glue_dropLast _ _ hb2, List.filterMap_append, List.append_assoc]
    apply congrArg (ReaderState.out st ++ ·)
    apply congrArg (_ ++ ·)
    rw [splitNL_append, hsingle]
  · rw [hsplit, glue_getLast_eq _ _ ha1, splitNL_append, hsingle]

theorem readerOnData_nil (parse : List Char → Option M)
    (st : ReaderState M) (hb : ('\n' : Char) ∉ st.buf) :
    readerOnData parse st [] = st := by
  have hs : splitNL st.buf = [st.buf] := splitNL_eq_single _ hb
  simp [readerOnData, hs]

theorem readerFoldl_join (parse : List Char → Option M) :
    ∀ (cs : List (List Char)) (st : ReaderState M),
      ('\n' : Char) ∉ st.buf →
      cs.foldl (readerOnData parse) st = readerOnData parse st cs.flatten := by
  intro cs
  induction cs with
  | nil =>
    intro st hb
    show st = readerOnData parse st []
    rw [readerOnData_nil parse st hb]
  | cons c cs ih =>
    intro st hb
    show List.foldl (readerOnData parse) (readerOnData parse st c) cs = _
    rw [ih (readerOnData parse st c) (getLastD_splitNL_no_newline _),
      readerOnData_append]
    simp [List.flatten]

theorem readerRun_join (parse : List Char → Option M)
    (chunks : List (List Char)) :
    readerRun parse chunks = readerRun parse [chunks.flatten] := by
  show chunks.foldl (readerOnData parse) readerInit = _
  rw [readerFoldl_join parse chunks readerInit (by simp [readerInit])]
  show _ = [chunks.flatten].foldl (readerOnData parse) readerInit
  simp

theorem hsLine_call (s : ExecState) (m : RpcMsg) :
    (hsLine s m).call = s.call := by
  simp only [hsLine]
  split <;> rfl

theorem foldl_hsLine_call (ms : List RpcMsg) :
    ∀ s : ExecState, (ms.foldl hsLine s).call = s.call := by
  induction ms with
  | nil => intro s; rfl
  | cons m ms ih =>
    intro s
    show (ms.foldl hsLine (hsLine s m)).call = s.call
    rw [ih (hsLine s m), hsLine_call]

theorem callLine_not100 (s : ExecState) (m : RpcMsg)
    (h : m.rpcId ≠ some 100) : callLine s m = s := by
  simp [callLine, h]

theorem foldl_callLine_not100 (ms : List RpcMsg) :
    ∀ s : ExecState, (∀ m ∈ ms, m.rpcId ≠ some 100) →
      ms.foldl callLine s = s := by
  induction ms with
  | nil => intro s _; rfl
  | cons m ms ih =>
    intro s h
    show ms.foldl callLine (callLine s m) = s
    rw [callLine_not100 s m (h m (List.mem_cons_self m ms))]
    exact ih s (fun m' hm' => h m' (List.mem_cons_of_mem m hm'))

theorem killExec_call (s : ExecState) : (killExec s).call = s.call := by
  simp only [killExec]
  split <;> rfl

theorem execStep_call_preserved (parse : List Char → Option RpcMsg)
    (s : ExecState) (e : ExecEvent)
    (h : ∀ chunk, e = .stdoutData chunk →
      ∀ m ∈ chunkMsgs parse chunk, m.rpcId ≠ some 100) :
    (execStep parse s e).call = s.call := by
  cases e with
  | stdoutData chunk =>
    simp only [execStep]
    by_cases ha : s.hsAttached
    · rw [if_pos ha, foldl_hsLine_call]
    · rw [if_neg ha]
      split
      · exact congrArg ExecState.call
          (foldl_callLine_not100 _ s (h chunk rfl))
      · rfl
  | stderrData chunk => rfl
  | procClose code =>
    simp only [execStep]
    split <;> rfl
  | hsTimeout =>
    simp only [execStep]
    split
    · rw [show ∀ t : ExecState,
        ({ t with hs := settleReject t.hs (strL "Handshake timeout") }
          : ExecState).call = t.call from fun t => rfl, killExec_call]
    · rfl
  | safetyTimeout => exact killExec_call s

theorem foldl_execStep_call_preserved (parse : List Char → Option RpcMsg)
    (events : List ExecEvent) :
    ∀ s : ExecState,
    (∀ chunk, ExecEvent.stdoutData chunk ∈ events →
      ∀ m ∈ chunkMsgs parse chunk, m.rpcId ≠ some 100) →
    (events.foldl (execStep parse) s).call = s.call := by
  induction events with
  | nil => intro s _; rfl
  | cons e es ih =>
    intro s h
    show (es.foldl (execStep parse) (execStep parse s e)).call = s.call
    rw [ih (execStep parse s e)
      (fun chunk hm => h chunk (List.mem_cons_of_mem e hm))]
    exact execStep_call_preserved parse s e
      (fun chunk he => h chunk (he ▸ List.mem_cons_self _ es))

/-- C1 counterexample: a run in which the handshake succeeds but the
tool never answers the id-100 data request. When the 60-second safety
timeout fires, the process is killed and nulled, yet the `callTool`
promise is still pending — it was not rejected with any timeout error,
contradicting the claim that the invocation never hangs unsettled. -/
theorem safety_timeout_leaves_call_pending :
    (runExec parseLineM
      [.stdoutData (strL "\x7b\"id\":0,\"result\":\x7b\x7d\x7d\n"),
        .safetyTimeout]).alive = false
    ∧ (runExec parseLineM
      [.stdoutData (strL "\x7b\"id\":0,\"result\":\x7b\x7d\x7d\n"),
        .safetyTimeout]).procRef = false
    ∧ (runExec parseLineM
      [.stdoutData (strL "\x7b\"id\":0,\"result\":\x7b\x7d\x7d\n"),
        .safetyTimeout]).call = Settle.pending := by
  refine ⟨by decide, by decide, by decide⟩

/-- C1 (amended): the 60-second safety timeout kills the child process
(and nulls `this.process`) but settles neither the handshake promise nor
the call promise; consequently an invocation whose process never emits an
id-100 response line is never settled by any event at all — there is no
`ExecutionTimeoutError` rejection path in the executor. -/
theorem safety_timeout_kills_but_settles_nothing :
    (∀ (parse : List Char → Option RpcMsg) (s : ExecState),
      (execStep parse s .safetyTimeout).hs = s.hs
      ∧ (execStep parse s .safetyTimeout).call = s.call
      ∧ (execStep parse s .safetyTimeout).procRef = false
      ∧ (s.procRef = true → (execStep parse s .safetyTimeout).alive = false))
    ∧ (∀ (parse : List Char → Option RpcMsg) (events : List ExecEvent),
      (∀ chunk, ExecEvent.stdoutData chunk ∈ events →
        ∀ m ∈ chunkMsgs parse chunk, m.rpcId ≠ some 100) →
      (runExec parse events).call = Settle.pending) := by
  constructor
  · intro parse s
    refine ⟨?_, ?_, ?_, ?_⟩
    · show (killExec s).hs = s.hs
      simp only [killExec]; split <;> rfl
    · exact killExec_call s
    · show (killExec s).procRef = false
      simp only [killExec]
      split
      · rfl
      · rename_i hp
        simpa using hp
    · intro hp
      show (killExec s).alive = false
      simp [killExec, hp]
  · intro parse events h
    exact foldl_execStep_call_preserved parse events execInit h

/-- Witness for `safety_timeout_kills_but_settles_nothing`: the trace
that only fires the safety timeout leaves the call promise pending. -/
theorem safety_timeout_kills_but_settles_nothing_witness :
    (runExec parseLineM [ExecEvent.safetyTimeout]).call = Settle.pending := by
  apply safety_timeout_kills_but_settles_nothing.2 parseLineM
    [ExecEvent.safetyTimeout]
  intro chunk hmem
  simp at hmem

/-- C2 (amended): the Discovery Runner's standard-output reader parses
only complete newline-terminated lines and re-buffers the partial
trailing line, so its output over any chunking of the byte stream equals
its output over the unsplit stream; in particular a protocol message
split across two chunk deliveries is still parsed exactly once. The
executor's reader has no such buffer (see the counterexample): a message
split across two chunks is parsed by neither listener and its response is
never delivered. -/
theorem discovery_reader_rebuffers_split_lines :
    (∀ (M : Type) (parse : List Char → Option M) (chunks : List (List Char)),
      readerRun parse chunks = readerRun parse [chunks.flatten])
    ∧ (readerRun parseLineM
        [strL "\x7b\"id\":100,\"res", strL "ult\":\x7b\x7d\x7d\n"]).out
        = [⟨some 100, true, false, none⟩] :=
  ⟨fun _ parse chunks => readerRun_join parse chunks, by decide⟩

/-- C2 counterexample: the executor's stdout listener splits each chunk
in isolation (`data.toString().split('\n')`, executor.ts lines 135 and
180) with no cross-read buffer. Delivered whole, the id-100 response
resolves the call; delivered split across two chunks, neither fragment
parses and the call promise stays pending — the response is never
delivered, contradicting the claim for the Process Bridge reader. -/
theorem executor_reader_drops_split_message :
    (runExec parseLineM
      [.stdoutData (strL "\x7b\"id\":0,\"result\":\x7b\x7d\x7d\n"),
        .stdoutData (strL "\x7b\"id\":100,\"result\":\x7b\x7d\x7d\n")]).call
      = Settle.resolved true
    ∧ (runExec parseLineM
      [.stdoutData (strL "\x7b\"id\":0,\"result\":\x7b\x7d\x7d\n"),
        .stdoutData (strL "\x7b\"id\":100,\"res"),
        .stdoutData (strL "ult\":\x7b\x7d\x7d\n")]).call
      = Settle.pending := by
  refine ⟨by decide, by decide⟩

theorem isPrefixOf_self_true (l : List Char) : l.isPrefixOf l = true := by
  induction l with
  | nil => rfl
  | cons c t ih => simp [List.isPrefixOf, ih]

theorem containsChars_append_self (sub x : List Char) :
    containsChars sub (x ++ sub) = true := by
  induction x with
  | nil =>
    cases sub with
    | nil => rfl
    | cons c t => simp [containsChars, isPrefixOf_self_true]
  | cons c t ih => simp [containsChars, ih]

theorem settleResolve_of_ne_pending (s : Settle α) (a : α)
    (h : s ≠ .pending) : settleResolve s a = s := by
  cases s with
  | pending => exact absurd rfl h
  | resolved b => rfl
  | rejected m => rfl

theorem settleReject_of_ne_pending (s : Settle α) (m : List Char)
    (h : s ≠ .pending) : settleReject s m = s := by
  cases s with
  | pending => exact absurd rfl h
  | resolved b => rfl
  | rejected m' => rfl

theorem hsLine_hs_settled (s : ExecState) (m : RpcMsg)
    (h : s.hs ≠ .pending) : (hsLine s m).hs = s.hs := by
  simp only [hsLine]
  split
  · exact settleResolve_of_ne_pending s.hs () h
  · rfl

theorem foldl_hsLine_hs_settled (ms : List RpcMsg) :
    ∀ s : ExecState, s.hs ≠ .pending →
      (ms.foldl hsLine s).hs = s.hs := by
  induction ms with
  | nil => intro s _; rfl
  | cons m ms ih =>
    intro s h
    show (ms.foldl hsLine (hsLine s m)).hs = s.hs
    rw [ih (hsLine s m) (by rw [hsLine_hs_settled s m h]; exact h),
      hsLine_hs_settled s m h]

theorem callLine_hs (s : ExecState) (m : RpcMsg) :
    (callLine s m).hs = s.hs := by
  simp only [callLine]
  split
  · split <;> rfl
  · rfl

theorem foldl_callLine_hs (ms : List RpcMsg) :
    ∀ s : ExecState, (ms.foldl callLine s).hs = s.hs := by
  induction ms with
  | nil => intro s; rfl
  | cons m ms ih =>
    intro s
    show (ms.foldl callLine (callLine s m)).hs = s.hs
    rw [ih (callLine s m), callLine_hs]

theorem killExec_hs (s : ExecState) : (killExec s).hs = s.hs := by
  simp only [killExec]
  split <;> rfl

theorem execStep_hs_settled (parse : List Char → Option RpcMsg)
    (s : ExecState) (e : ExecEvent) (h : s.hs ≠ .pending) :
    (execStep parse s e).hs = s.hs := by
  cases e with
  | stdoutData chunk =>
    simp only [execStep]
    by_cases ha : s.hsAttached
    · rw [if_pos ha, foldl_hsLine_hs_settled _ s h]
    · rw [if_neg ha]
      split
      · exact foldl_callLine_hs _ s
      · rfl
  | stderrData chunk => rfl
  | procClose code =>
    simp only [execStep]
    split
    · exact settleReject_of_ne_pending s.hs _ h
    · rfl
  | hsTimeout =>
    simp only [execStep]
    split
    · show (settleReject (killExec s).hs (strL "Handshake timeout")) = s.hs
      rw [killExec_hs, settleReject_of_ne_pending s.hs _ h]
    · rfl
  | safetyTimeout => exact killExec_hs s

theorem foldl_execStep_hs_rejected (parse : List Char → Option RpcMsg)
    (events : List ExecEvent) :
    ∀ (s : ExecState) (msg : List Char), s.hs = .rejected msg →
      (events.foldl (execStep parse) s).hs = Settle.rejected msg := by
  induction events with
  | nil => intro s msg h; exact h
  | cons e es ih =>
    intro s msg h
    show (es.foldl (execStep parse) (execStep parse s e)).hs = _
    refine ih (execStep parse s e) msg ?_
    rw [execStep_hs_settled parse s e (by rw [h]; intro hc; cases hc)]
    exact h

/-- C5 (amended): on a process `close` before initialization, the
executor rejects the pending handshake promise at that very event with
the early-exit error carrying the exit code (but not the stderr text,
which the executor only logs — see the counterexample); the rejection is
permanent, so the later handshake-timeout event cannot re-settle the
promise — the crash rejection strictly precedes the timeout. The
Discovery Runner's variant additionally carries the captured stderr log
in its rejection message. -/
theorem early_exit_rejects_before_timeout :
    (∀ (parse : List Char → Option RpcMsg) (s : ExecState)
        (code : Option Int),
      s.isInitialized = false → s.hs = .pending →
      (execStep parse s (.procClose code)).hs
        = .rejected (execCrashMsg code))
    ∧ (∀ (parse : List Char → Option RpcMsg) (s : ExecState)
        (msg : List Char) (events : List ExecEvent),
      s.hs = .rejected msg →
      (events.foldl (execStep parse) s).hs = Settle.rejected msg)
    ∧ (∀ (parse : List Char → Option RpcMsg) (s : InspState)
        (code : Option Int),
      s.isInitialized = false → s.p = .pending →
      (inspStep parse s (.procExit code)).p
        = .rejected (inspCrashMsg code s.stderrLog)
      ∧ containsChars s.stderrLog (inspCrashMsg code s.stderrLog) = true) := by
  refine ⟨?_, ?_, ?_⟩
  · intro parse s code hinit hp
    simp only [execStep, hinit]
    simp [hp, settleReject]
  · intro parse s msg events h
    exact foldl_execStep_hs_rejected parse events s msg h
  · intro parse s code hinit hp
    constructor
    · simp only [inspStep, hinit]
      simp [hp, settleReject]
    · exact containsChars_append_self s.stderrLog _

/-- Witness for `early_exit_rejects_before_timeout`: a crash with exit
code 1 from the initial states, and permanence of a rejection across a
later handshake-timeout event. -/
theorem early_exit_rejects_before_timeout_witness :
    (execStep parseLineM execInit (.procClose (some 1))).hs
      = Settle.rejected (execCrashMsg (some 1))
    ∧ ([ExecEvent.hsTimeout].foldl (execStep parseLineM)
        { execInit with hs := .rejected (strL "crash") }).hs
      = Settle.rejected (strL "crash")
    ∧ (inspStep parseLineM inspInit (.procExit (some 1))).p
      = Settle.rejected (inspCrashMsg (some 1) inspInit.stderrLog) :=
  ⟨early_exit_rejects_before_timeout.1 parseLineM execInit (some 1) rfl rfl,
    early_exit_rejects_before_timeout.2.1 parseLineM
      { execInit with hs := .rejected (strL "crash") } (strL "crash")
      [ExecEvent.hsTimeout] rfl,
    (early_exit_rejects_before_timeout.2.2 parseLineM inspInit (some 1)
      rfl rfl).1⟩

/-- C5 counterexample: stderr text `boom` arrives and the process then
exits with code 1 before initialization; the executor's rejection message
carries the exit code but does not contain the stderr text — the
executor never captures stderr into the error, contradicting the claim
that the rejection carries the captured standard-error text. -/
theorem executor_crash_message_lacks_stderr :
    (runExec parseLineM
      [.stderrData (strL "boom"), .procClose (some 1)]).hs
      = Settle.rejected (execCrashMsg (some 1))
    ∧ containsChars (strL "boom") (execCrashMsg (some 1)) = false := by
  refine ⟨by decide, by decide⟩

/-- C4: for every caller-supplied argument map and configured
`defaultArguments` map, the argument object of the id-100 invocation
request is the caller arguments overlaid with the defaults, the defaults
winning on every conflicting key; in particular caller `{a: 1}` against
defaults `{a: 2}` yields `a = 2`, on the fixed request id 100. -/
theorem invoke_arguments_defaults_win :
    (∀ (V : Type) (name : String) (callerArgs defaults : StrMap V)
        (k : String),
      (gatewayCallRequest name callerArgs defaults).arguments k
        = match defaults k with
          | some v => some v
          | none => callerArgs k)
    ∧ (gatewayCallRequest "fetch" (mapOf [("a", (1 : Nat))])
        (mapOf [("a", 2)])).arguments "a" = some 2
    ∧ (gatewayCallRequest "fetch" (mapOf [("a", (1 : Nat))])
        (mapOf [("a", 2)])).reqId = 100 := by
  refine ⟨fun V name callerArgs defaults k => rfl, by decide, rfl⟩

/-- C3 counterexample: with configuration `{PYTHONPATH: "x"}` and secret
`{PYTHONPATH: "y"}`, the spawned environment holds the working directory
— not the secret value — at that key, so the claimed secrets-win overlay
equality fails on this input. -/
theorem spawn_env_not_plain_overlay :
    (gatewayToolEnv (mapOf [("PYTHONPATH", "x")])
        (mapOf [("PYTHONPATH", "y")])) "PYTHONPATH" = some "y"
    ∧ spawnEnv false (mapOf [("PATH", "/usr/bin")])
        (gatewayToolEnv (mapOf [("PYTHONPATH", "x")])
          (mapOf [("PYTHONPATH", "y")]))
        "/cache/t1" "PYTHONPATH" = some "/cache/t1"
    ∧ (some "/cache/t1" : Option String) ≠ some "y" := by
  refine ⟨by decide, rfl, by decide⟩

/-- C3 (amended): on every key other than the reserved `PATH`,
`PYTHONUNBUFFERED` and `PYTHONPATH`, the spawned environment is the
gateway's process environment overlaid with the configured `env` overlaid
with the per-tool secrets, secrets winning on conflict. -/
theorem spawn_env_secrets_win_off_reserved
    (win : Bool) (procEnv configEnv secretEnv : StrMap String)
    (cwd k : String)
    (h1 : k ≠ "PATH") (h2 : k ≠ "PYTHONUNBUFFERED") (h3 : k ≠ "PYTHONPATH") :
    spawnEnv win procEnv (gatewayToolEnv configEnv secretEnv) cwd k
      = match secretEnv k with
        | some v => some v
        | none =>
          match configEnv k with
          | some v => some v
          | none => procEnv k := by
  simp only [spawnEnv, gatewayToolEnv, if_neg h1, if_neg h2, if_neg h3]
  cases secretEnv k <;> cases configEnv k <;> rfl

/-- Witness for `spawn_env_secrets_win_off_reserved` at the concrete key
`API_KEY` with a configured/secret conflict. -/
theorem spawn_env_secrets_win_off_reserved_witness :
    spawnEnv false (mapOf [("HOME", "/root")])
      (gatewayToolEnv (mapOf [("API_KEY", "x")]) (mapOf [("API_KEY", "y")]))
      "/cache/t1" "API_KEY" = some "y" := by
  rw [spawn_env_secrets_win_off_reserved false (mapOf [("HOME", "/root")])
    (mapOf [("API_KEY", "x")]) (mapOf [("API_KEY", "y")]) "/cache/t1"
    "API_KEY" (by decide) (by decide) (by decide)]
  decide

/-- C10: the spawned environment always carries `PYTHONUNBUFFERED = "1"`,
`PYTHONPATH = cwd`, and `PATH` = the working directory's venv executable
directory prepended to the gateway's own PATH — whatever values the
configuration or secrets supply for those keys (they are quantified
here and do not occur in the result). -/
theorem spawn_env_reserved_keys_forced
    (win : Bool) (procEnv configEnv secretEnv : StrMap String)
    (cwd p : String) (hcwd : cwd ≠ "") (hpath : procEnv "PATH" = some p) :
    spawnEnv win procEnv (gatewayToolEnv configEnv secretEnv) cwd
        "PYTHONUNBUFFERED" = some "1"
    ∧ spawnEnv win procEnv (gatewayToolEnv configEnv secretEnv) cwd
        "PYTHONPATH" = some cwd
    ∧ spawnEnv win procEnv (gatewayToolEnv configEnv secretEnv) cwd
        "PATH" = some (venvBinDir win cwd ++ pathDelim win ++ p) := by
  refine ⟨by simp [spawnEnv], rfl, ?_⟩
  simp [spawnEnv, newPathOf, hcwd, undefStr, hpath]

/-- Witness for `spawn_env_reserved_keys_forced`: configuration and
secrets both try to override all three reserved keys and fail. -/
theorem spawn_env_reserved_keys_forced_witness :
    spawnEnv false (mapOf [("PATH", "/usr/bin")])
      (gatewayToolEnv
        (mapOf [("PYTHONPATH", "cfg"), ("PATH", "cfgpath")])
        (mapOf [("PYTHONUNBUFFERED", "0"), ("PATH", "secpath")]))
      "/cache/t1" "PYTHONUNBUFFERED" = some "1"
    ∧ spawnEnv false (mapOf [("PATH", "/usr/bin")])
      (gatewayToolEnv
        (mapOf [("PYTHONPATH", "cfg"), ("PATH", "cfgpath")])
        (mapOf [("PYTHONUNBUFFERED", "0"), ("PATH", "secpath")]))
      "/cache/t1" "PYTHONPATH" = some "/cache/t1"
    ∧ spawnEnv false (mapOf [("PATH", "/usr/bin")])
      (gatewayToolEnv
        (mapOf [("PYTHONPATH", "cfg"), ("PATH", "cfgpath")])
        (mapOf [("PYTHONUNBUFFERED", "0"), ("PATH", "secpath")]))
      "/cache/t1" "PATH"
        = some (venvBinDir false "/cache/t1" ++ pathDelim false ++ "/usr/bin") :=
  spawn_env_reserved_keys_forced false (mapOf [("PATH", "/usr/bin")])
    (mapOf [("PYTHONPATH", "cfg"), ("PATH", "cfgpath")])
    (mapOf [("PYTHONUNBUFFERED", "0"), ("PATH", "secpath")])
    "/cache/t1" "/usr/bin" (by decide) (by decide)

/-- C6 counterexample: a registration owned by the caller but with
status `failed` advertising capability `c`. The claim's visibility set
(owned-or-public) contains it, so the claim predicts the invoke resolves
to it and the listing shows it; the handlers filter on `status =
'active'` and return not-found / an empty list instead. -/
theorem visibility_filters_on_active_status :
    (⟨"t1", "u", false, "failed", [⟨"c", "d", "s"⟩], "b", "cmd"⟩
      : ToolReg).userId = "u"
    ∧ advertises
        ⟨"t1", "u", false, "failed", [⟨"c", "d", "s"⟩], "b", "cmd"⟩ "c" = true
    ∧ resolveTool "u"
        [⟨"t1", "u", false, "failed", [⟨"c", "d", "s"⟩], "b", "cmd"⟩] "c"
        = .error "Tool c not found"
    ∧ listToolsHandler "u"
        [⟨"t1", "u", false, "failed", [⟨"c", "d", "s"⟩], "b", "cmd"⟩]
        = [] := by
  refine ⟨rfl, by decide, by rfl, by decide⟩

/-- C6 (amended): listing and invoking are scoped to registrations that
are `active` and (owned by the caller or public): the listed entries are
exactly the capabilities of such registrations; a successful invoke
resolves to the first such registration advertising the requested name;
and when no such registration advertises it, invoke fails with the
not-found error. -/
theorem visibility_active_owned_or_public :
    (∀ (uid : String) (regs : List ToolReg) (e : ListedTool),
      e ∈ listToolsHandler uid regs ↔
        ∃ t, t ∈ regs ∧ t.status = "active"
          ∧ (t.userId = uid ∨ t.isPublic = true)
          ∧ ∃ c, c ∈ t.manifestTools ∧ e = listedOf t c)
    ∧ (∀ (uid : String) (regs : List ToolReg) (name : String) (t : ToolReg),
      resolveTool uid regs name = .ok t ↔
        advertises t name = true
        ∧ ∃ pre post, visibleTools uid regs = pre ++ t :: post
          ∧ ∀ t' ∈ pre, advertises t' name = false)
    ∧ (∀ (uid : String) (regs : List ToolReg) (name : String),
      (∀ t ∈ visibleTools uid regs, advertises t name = false) →
        resolveTool uid regs name
          = .error ("Tool " ++ name ++ " not found")) := by
  refine ⟨?_, ?_, ?_⟩
  · intro uid regs e
    simp only [listToolsHandler, List.mem_flatten, List.mem_map,
      visibleTools, List.mem_filter, Bool.and_eq_true, Bool.or_eq_true,
      beq_iff_eq]
    constructor
    · rintro ⟨l, ⟨t, ⟨⟨ht, hstat, hvis⟩, rfl⟩⟩, he⟩
      rcases List.mem_map.mp he with ⟨c, hc, rfl⟩
      exact ⟨t, ht, hstat, hvis, c, hc, rfl⟩
    · rintro ⟨t, ht, hstat, hvis, c, hc, rfl⟩
      exact ⟨t.manifestTools.map (listedOf t), ⟨t, ⟨⟨ht, hstat, hvis⟩, rfl⟩⟩,
        List.mem_map.mpr ⟨c, hc, rfl⟩⟩
  · intro uid regs name t
    constructor
    · intro h
      cases hf : (visibleTools uid regs).find? (fun t' => advertises t' name)
        with
      | none => simp [resolveTool, hf] at h
      | some u =>
        have hut : u = t := by
          simp only [resolveTool, hf] at h
          exact Except.ok.inj h
        subst hut
        rcases List.find?_eq_some.mp hf with ⟨hp, pre, post, heq, hall⟩
        refine ⟨hp, pre, post, heq, fun t' ht' => ?_⟩
        have := hall t' ht'
        simpa using this
    · rintro ⟨hp, pre, post, heq, hpre⟩
      have hf : (visibleTools uid regs).find? (fun t' => advertises t' name)
          = some t :=
        List.find?_eq_some.mpr
          ⟨hp, pre, post, heq, fun t' ht' => by simpa using hpre t' ht'⟩
      simp [resolveTool, hf]
  · intro uid regs name h
    have hf : (visibleTools uid regs).find? (fun t' => advertises t' name)
        = none :=
      List.find?_eq_none.mpr (fun t' ht' => by simpa using h t' ht')
    simp [resolveTool, hf]

/-- Witness for `visibility_active_owned_or_public`: with a failed owned
registration ahead of an active owned one, invoke resolves to the active
one (the first element of the filtered view), and over no registrations
invoke returns the not-found error. -/
theorem visibility_active_owned_or_public_witness :
    resolveTool "u"
      [⟨"t1", "u", false, "failed", [⟨"c", "d1", "s1"⟩], "b1", "cmd1"⟩,
        ⟨"t2", "u", false, "active", [⟨"c", "d2", "s2"⟩], "b2", "cmd2"⟩] "c"
      = .ok ⟨"t2", "u", false, "active", [⟨"c", "d2", "s2"⟩], "b2", "cmd2"⟩
    ∧ resolveTool "u" [] "c" = .error "Tool c not found" :=
  ⟨(visibility_active_owned_or_public.2.1 "u"
      [⟨"t1", "u", false, "failed", [⟨"c", "d1", "s1"⟩], "b1", "cmd1"⟩,
        ⟨"t2", "u", false, "active", [⟨"c", "d2", "s2"⟩], "b2", "cmd2"⟩] "c"
      ⟨"t2", "u", false, "active", [⟨"c", "d2", "s2"⟩], "b2", "cmd2"⟩).mpr
      ⟨by decide, [],
        [], by decide, by intro t' ht'; simp at ht'⟩,
    visibility_active_owned_or_public.2.2 "u" [] "c"
      (by intro t ht; simp [visibleTools] at ht)⟩

/-- C7: a Discovery Runner registration run is atomic: when a step
fails with message `m`, the row update is `status: 'failed'` with
`error_message = m` and no manifest, and exactly the steps up to the
failing one were started; the active status and the manifest are written
only when every step succeeds, in which case the manifest is the
introspected capability list. -/
theorem runner_failure_atomicity (sc : RunnerScenario) :
    (∀ (st : RunnerStep) (m : String),
      firstRunnerFailure sc = some (st, m) →
      runnerMain sc = (⟨"failed", none, some m⟩, stepsThrough st))
    ∧ (firstRunnerFailure sc = none →
      ∃ tools, sc.introspect = .ok tools
        ∧ runnerMain sc
          = (⟨"active", some tools, none⟩, stepsThrough .uploadStep)) := by
  constructor
  · intro st m hf
    cases hc : sc.clone with
    | error mm =>
      simp only [firstRunnerFailure, hc] at hf
      obtain ⟨h1, h2⟩ := Prod.mk.injEq .. ▸ Option.some.inj hf
      subst h1; subst h2
      simp [runnerMain, hc, stepsThrough]
    | ok u =>
      cases hi : (installDependencies sc.install).1 with
      | error mm =>
        simp only [firstRunnerFailure, hc, hi] at hf
        obtain ⟨h1, h2⟩ := Prod.mk.injEq .. ▸ Option.some.inj hf
        subst h1; subst h2
        simp [runnerMain, hc, hi, stepsThrough]
      | ok u2 =>
        cases hn : sc.introspect with
        | error mm =>
          simp only [firstRunnerFailure, hc, hi, hn] at hf
          obtain ⟨h1, h2⟩ := Prod.mk.injEq .. ▸ Option.some.inj hf
          subst h1; subst h2
          simp [runnerMain, hc, hi, hn, stepsThrough]
        | ok tools =>
          cases hp : sc.pack with
          | error mm =>
            simp only [firstRunnerFailure, hc, hi, hn, hp] at hf
            obtain ⟨h1, h2⟩ := Prod.mk.injEq .. ▸ Option.some.inj hf
            subst h1; subst h2
            simp [runnerMain, hc, hi, hn, hp, stepsThrough]
          | ok u3 =>
            cases hu : sc.upload with
            | error mm =>
              simp only [firstRunnerFailure, hc, hi, hn, hp, hu] at hf
              obtain ⟨h1, h2⟩ := Prod.mk.injEq .. ▸ Option.some.inj hf
              subst h1; subst h2
              simp [runnerMain, hc, hi, hn, hp, hu, stepsThrough]
            | ok u4 =>
              simp [firstRunnerFailure, hc, hi, hn, hp, hu] at hf
  · intro hf
    cases hc : sc.clone with
    | error mm => simp [firstRunnerFailure, hc] at hf
    | ok u =>
      cases hi : (installDependencies sc.install).1 with
      | error mm => simp [firstRunnerFailure, hc, hi] at hf
      | ok u2 =>
        cases hn : sc.introspect with
        | error mm => simp [firstRunnerFailure, hc, hi, hn] at hf
        | ok tools =>
          cases hp : sc.pack with
          | error mm => simp [firstRunnerFailure, hc, hi, hn, hp] at hf
          | ok u3 =>
            cases hu : sc.upload with
            | error mm =>
              simp [firstRunnerFailure, hc, hi, hn, hp, hu] at hf
            | ok u4 =>
              exact ⟨tools, rfl,
                by simp [runnerMain, hc, hi, hn, hp, hu, stepsThrough]⟩

/-- Witness for `runner_failure_atomicity`: a run whose requirements
install fails with a non-empty message stops after the install step and
records the message; a fully successful run writes the manifest and the
active status. -/
theorem runner_failure_atomicity_witness :
    runnerMain ⟨.ok (),
      ⟨false, .ok (), false, true, true, .ok (), .ok (), .ok (), .ok (),
        .error "pip failed", .ok ()⟩, .ok [], .ok (), .ok ()⟩
      = (⟨"failed", none, some "pip failed"⟩,
        [.cloneStep, .installStep])
    ∧ runnerMain ⟨.ok (),
      ⟨false, .ok (), false, true, true, .ok (), .ok (), .ok (), .ok (),
        .ok (), .ok ()⟩, .ok [⟨"c", "d", "s"⟩], .ok (), .ok ()⟩
      = (⟨"active", some [⟨"c", "d", "s"⟩], none⟩,
        [.cloneStep, .installStep, .secretsStep, .introspectStep,
          .packStep, .uploadStep]) := by
  constructor
  · exact (runner_failure_atomicity _).1 .installStep "pip failed" rfl
  · obtain ⟨tools, h1, h2⟩ := (runner_failure_atomicity
      ⟨.ok (), ⟨false, .ok (), false, true, true, .ok (), .ok (), .ok (),
        .ok (), .ok (), .ok ()⟩, .ok [⟨"c", "d", "s"⟩], .ok (),
        .ok ()⟩).2 rfl
    have : tools = [⟨"c", "d", "s"⟩] := (Except.ok.inj h1.symm)
    subst this
    exact h2

/-- C8: when the cache directory for a tool id exists and is non-empty,
`prepareTool` returns its path with an empty effect list — no download,
extraction or install work; since the warm path performs no side effect,
a second call for the same ready tool id runs against the identical cache
state, returns the same path, and the two calls together perform no
download. -/
theorem provisioner_warm_cache (sc : ProvScenario)
    (runtimeCache toolId bundlePath : String)
    (h1 : sc.dirExists = true) (h2 : sc.dirFiles ≠ []) :
    prepareTool sc runtimeCache toolId bundlePath
      = (.ok (toolDirOf runtimeCache toolId), [])
    ∧ (prepareTool sc runtimeCache toolId bundlePath).2
        ++ (prepareTool sc runtimeCache toolId bundlePath).2 = [] := by
  have hlen : 0 < sc.dirFiles.length := List.length_pos.mpr h2
  constructor
  · simp [prepareTool, h1, hlen]
  · simp [prepareTool, h1, hlen]

/-- Witness for `provisioner_warm_cache` on a concrete warm cache. -/
theorem provisioner_warm_cache_witness :
    prepareTool ⟨true, ["main.py"], .ok (), false, false, false, true,
        false, false, .ok (), .ok (), .ok (), .ok (), .ok (), .ok (),
        .ok (), .ok (), .ok ()⟩ "runtime_cache" "t1" "snapshots/t1.zip"
      = (.ok (toolDirOf "runtime_cache" "t1"), []) :=
  (provisioner_warm_cache _ "runtime_cache" "t1" "snapshots/t1.zip"
    rfl (by decide)).1

/-- C9 counterexample: a cold Python provisioning run with a
`pyproject.toml` and no `uv.lock` whose `pip install .` step fails: the
claim says this failure is a recoverable warning and provisioning still
succeeds, but `prepareTool` propagates it and provisioning fails. -/
theorem provisioner_pip_install_project_is_fatal :
    (prepareTool ⟨false, [], .ok (), false, false, false, true, false,
        false, .ok (), .ok (), .ok (), .ok (), .ok (), .ok (), .ok (),
        .error "build backend failed", .ok ()⟩
      "runtime_cache" "t1" "snapshots/t1.zip").1
      = .error "build backend failed"
    ∧ ProvEffect.runStep "pip install ."
      ∈ (prepareTool ⟨false, [], .ok (), false, false, false, true, false,
          false, .ok (), .ok (), .ok (), .ok (), .ok (), .ok (), .ok (),
          .error "build backend failed", .ok ()⟩
        "runtime_cache" "t1" "snapshots/t1.zip").2 := by
  refine ⟨by rfl, by decide⟩

/-- C9 (amended): in the Provisioner's cold Python path every
dependency-install failure is fatal — in particular a failing
`pip install .` aborts provisioning; the recoverable-warning treatment
of `pip install .` belongs to the Discovery Runner's install step, where
a requirements.txt failure is fatal but a `pip install .` failure leaves
the install successful even though the step was attempted. -/
theorem python_install_fatality :
    (∀ (sc : ProvScenario) (rc tid bp m : String),
      sc.dirExists = false → sc.download = .ok () →
      sc.hasPackageJson = false → sc.hasPyproject = true →
      sc.hasUvLock = false →
      sc.venvCreate = .ok () → sc.pipUpgrade = .ok () →
      sc.pipInstallUv = .ok () → sc.pipInstallProject = .error m →
      (prepareTool sc rc tid bp).1 = .error m)
    ∧ (∀ (sc : InstallScenario) (m : String),
      sc.hasPackageJson = false → sc.hasRequirements = true →
      sc.venvCreate = .ok () → sc.pipReqs = .error m →
      (installDependencies sc).1 = .error m)
    ∧ (∀ sc : InstallScenario,
      sc.hasPackageJson = false → sc.hasPyproject = true →
      sc.hasRequirements = true →
      sc.venvCreate = .ok () → sc.pipReqs = .ok () →
      (installDependencies sc).1 = .ok ()
      ∧ "pip install ." ∈ (installDependencies sc).2) := by
  refine ⟨?_, ?_, ?_⟩
  · intro sc rc tid bp m hde hdl hpkg hpy huv hvenv hup huvi hproj
    simp [prepareTool, provInstall, hde, hdl, hpkg, hpy, huv, hvenv,
      hup, huvi, hproj]
  · intro sc m hpkg hreq hvenv hpr
    simp [installDependencies, hpkg, hreq, hvenv, hpr]
  · intro sc hpkg hpy hreq hvenv hpr
    constructor
    · simp [installDependencies, hpkg, hpy, hreq, hvenv, hpr]
    · simp [installDependencies, hpkg, hpy, hreq, hvenv, hpr]

/-- Witness for `python_install_fatality` at concrete scenarios. -/
theorem python_install_fatality_witness :
    (prepareTool ⟨false, [], .ok (), false, false, false, true, false,
        false, .ok (), .ok (), .ok (), .ok (), .ok (), .ok (), .ok (),
        .error "boom", .ok ()⟩ "runtime_cache" "t2" "snapshots/t2.zip").1
      = .error "boom"
    ∧ (installDependencies ⟨false, .ok (), false, false, true, .ok (),
        .ok (), .ok (), .ok (), .error "reqs failed", .ok ()⟩).1
      = .error "reqs failed"
    ∧ (installDependencies ⟨false, .ok (), false, true, true, .ok (),
        .ok (), .ok (), .ok (), .ok (), .error "pip install dot failed"⟩).1
      = .ok () :=
  ⟨python_install_fatality.1 _ "runtime_cache" "t2" "snapshots/t2.zip"
      "boom" rfl rfl rfl rfl rfl rfl rfl rfl rfl,
    python_install_fatality.2.1 _ "reqs failed" rfl rfl rfl rfl,
    (python_install_fatality.2.2 ⟨false, .ok (), false, true, true,
      .ok (), .ok (), .ok (), .ok (), .ok (),
      .error "pip install dot failed"⟩ rfl rfl rfl rfl rfl).1⟩

end MCPSentry
